import Mathlib

namespace SandboxMailer

/-!
# Verification of the sandbox-mailer capture pipeline

Shallow embedding of `src/server/index.js` (sandbox SMTP mail-capture
server): the bounded in-memory stores, the rate-limit admission check,
the latency computation, the message-ingestion step of the `onData`
handler, the attachment endpoints, and the `PUT /api/config` merge.
JavaScript numbers appearing as integer counters and timestamps are
modelled as `Nat`; the uniform random draw of the latency computation is
modelled as a rational in `[0,1)`; JSON field values reaching the config
endpoint are modelled by the inductive `JVal`.
-/

/-! ## Bounded stores

`src/server/index.js` keeps two arrays, `emails` and `errors`.  Every
insertion is `xs.unshift(x); if (xs.length > cap) xs.pop();` with
`cap = 100` for emails (lines 158–165) and `cap = 50` for errors
(lines 114–115 and 180–181).  `insertBounded` is that operation:
prepend, then drop the last (oldest) element when the capacity is
exceeded. -/

/-- One bounded-store insertion: `unshift` then conditional `pop`
(`if (xs.length > cap) xs.pop()`). -/
def insertBounded (cap : Nat) (x : α) (l : List α) : List α :=
  let l' := x :: l
  if l'.length > cap then l'.dropLast else l'

/-- Inserting a whole list in order, starting from a given store. -/
def insertAllFrom (cap : Nat) (s : List α) (l : List α) : List α :=
  List.foldl (fun acc x => insertBounded cap x acc) s l

/-- Inserting a whole list in order into the initially empty store
(both arrays start as `[]`, lines 18–19). -/
def insertAll (cap : Nat) (l : List α) : List α := insertAllFrom cap [] l

/-! ## Entities

The records built by the `onData` handler (lines 105–113, 134–156,
171–179).  The attachment `content` field holds the base64 string the
server stores (`a.content.toString('base64')`, line 139); `cid` is
`a.cid || null`.  Fields whose JavaScript value is filled by
`x || default` from a possibly-missing (or empty, hence falsy) parsed
value are modelled upstream as `Option`; the stored records hold the
already-defaulted values, as in the source. -/

structure Attachment where
  id : String
  filename : String
  contentType : String
  size : Nat
  content : String
  cid : Option String
deriving Repr, DecidableEq

structure Email where
  id : String
  from_ : String
  to_ : String
  cc : String
  bcc : String
  subject : String
  text : String
  html : String
  attachments : List Attachment
  headers : List (String × String)
  receivedAt : String
  size : Nat
deriving Repr, DecidableEq

structure ErrorRecord where
  id : String
  type : String
  code : Nat
  message : String
  timestamp : String
  from_ : String
  to_ : List String
deriving Repr, DecidableEq

/-- A sample email used to instantiate universally quantified theorems. -/
def sampleEmail : Email :=
  { id := "e1", from_ := "a@x", to_ := "b@y", cc := "", bcc := "",
    subject := "hi", text := "body", html := "", attachments := [],
    headers := [], receivedAt := "2026-01-01T00:00:00.000Z", size := 4 }

/-- A sample error record used to instantiate universally quantified
theorems. -/
def sampleError : ErrorRecord :=
  { id := "r1", type := "rate_limit", code := 421, message := "m",
    timestamp := "2026-01-01T00:00:00.000Z", from_ := "a@x", to_ := ["b@y"] }

/-! ## Base64

Line 139 stores each attachment payload as
`a.content.toString('base64')` (standard RFC 4648 base64 with `=`
padding, as produced by Node's `Buffer`); the attachment endpoints
(lines 227 and 247) recover the bytes with
`Buffer.from(attachment.content, 'base64')`.  Bytes are naturals
`< 256`; `b64EncodeAux` produces the encoded characters and
`b64DecodeAux` decodes well-formed base64 (the only shape the server
ever stores). -/

def b64Alphabet : List Char :=
  "ABCDEFGHIJKLMNOPQRSTUVWXYZabcdefghijklmnopqrstuvwxyz0123456789+/".toList

/-- The character for a six-bit group. -/
def sixToChar (n : Nat) : Char := b64Alphabet.getD n 'A'

/-- The six-bit group of an alphabet character. -/
def charToSix (c : Char) : Nat := b64Alphabet.indexOf c

/-- Base64 encoding of a byte list, three bytes to four characters,
padding the final group with `=`. -/
def b64EncodeAux : List Nat → List Char
  | [] => []
  | [b1] => [sixToChar (b1 / 4), sixToChar (b1 % 4 * 16), '=', '=']
  | [b1, b2] =>
      [sixToChar (b1 / 4), sixToChar (b1 % 4 * 16 + b2 / 16),
        sixToChar (b2 % 16 * 4), '=']
  | b1 :: b2 :: b3 :: rest =>
      sixToChar (b1 / 4) :: sixToChar (b1 % 4 * 16 + b2 / 16) ::
        sixToChar (b2 % 16 * 4 + b3 / 64) :: sixToChar (b3 % 64) ::
          b64EncodeAux rest

/-- Base64 decoding of well-formed base64, four characters to three
bytes, with `=` padding cutting the final group short. -/
def b64DecodeAux : List Char → List Nat
  | c1 :: c2 :: c3 :: c4 :: rest =>
      if c3 = '=' then
        [charToSix c1 * 4 + charToSix c2 / 16]
      else if c4 = '=' then
        [charToSix c1 * 4 + charToSix c2 / 16,
          charToSix c2 % 16 * 16 + charToSix c3 / 4]
      else
        (charToSix c1 * 4 + charToSix c2 / 16) ::
          (charToSix c2 % 16 * 16 + charToSix c3 / 4) ::
            (charToSix c3 % 4 * 64 + charToSix c4) :: b64DecodeAux rest
  | _ => []

/-! ## Rate-limit admission check

`checkRateLimit` (lines 55–71).  The counter `emailsInCurrentSecond`
and the clock `Date.now()` are naturals.  `Math.ceil` on line 66 is
applied to `1000 - (now % 1000)`, an integer, so it is the identity and
is dropped from the embedding.  The unused local
`timeSinceLastEmail = now - lastEmailTime` (line 59) is dead code and
omitted.  `none` models `{ allowed: true }`. -/

structure RLDeny where
  code : Nat
  message : String
  retryAfter : Nat
deriving Repr, DecidableEq

/-- The rejection message of line 65, with the configured limit
interpolated (JavaScript template `${config.rateLimit.maxPerSecond}`). -/
def rateLimitMessage (maxPerSecond : Nat) : String :=
  "421 4.7.0 Rate limit exceeded: Maximum " ++ toString maxPerSecond ++
    " email(s) per second allowed. Please retry after 1 second."

def checkRateLimit (rlEnabled : Bool) (maxPerSecond : Nat)
    (emailsInCurrentSecond : Nat) (now : Nat) : Option RLDeny :=
  if !rlEnabled then none
  else if emailsInCurrentSecond ≥ maxPerSecond then
    some ⟨421, rateLimitMessage maxPerSecond, 1000 - now % 1000⟩
  else none

/-! ## Message ingestion

The success branch of `onData` (lines 131–156) turns the parser output
of `simpleParser` into an `Email`.  Every parsed field is consumed only
through `x?.y || default` (or `x || default`), which distinguishes just
truthy from falsy values; a falsy field (`undefined`, or the empty
string for the text fields) is modelled as `none`.  Attachment payload
bytes (`a.content`, a Node `Buffer`) are a `List Nat`.  Fresh
`uuidv4()` identifiers are supplied externally: one for the email, and
one per attachment position through `attIds : Nat → String`. -/

structure ParsedAttachment where
  filename : Option String
  contentType : Option String
  size : Option Nat
  content : List Nat
  cid : Option String

structure ParsedMessage where
  fromText : Option String
  toText : Option String
  ccText : Option String
  bccText : Option String
  subject : Option String
  text : Option String
  html : Option String
  attachments : Option (List ParsedAttachment)
  headers : List (String × String)

/-- One attachment record of lines 134–141. -/
def mkAttachment (aid : String) (a : ParsedAttachment) : Attachment :=
  { id := aid,
    filename := a.filename.getD "unnamed",
    contentType := a.contentType.getD "application/octet-stream",
    size := a.size.getD 0,
    content := String.mk (b64EncodeAux a.content),
    cid := a.cid }

/-- Models `parsed.attachments?.map(a => ({ id: uuidv4(), ... })) || []`:
each element gets the next fresh id. -/
def mkAttachments (attIds : Nat → String) (i : Nat) :
    List ParsedAttachment → List Attachment
  | [] => []
  | a :: rest => mkAttachment (attIds i) a :: mkAttachments attIds (i + 1) rest

/-- The `Email` object of lines 143–156. -/
def mkEmail (eid : String) (attIds : Nat → String) (receivedAt : String)
    (fromAddress : String) (toAddresses : List String)
    (p : ParsedMessage) : Email :=
  { id := eid,
    from_ := p.fromText.getD fromAddress,
    to_ := p.toText.getD (String.intercalate ", " toAddresses),
    cc := p.ccText.getD "",
    bcc := p.bccText.getD "",
    subject := p.subject.getD "(no subject)",
    text := p.text.getD "",
    html := p.html.getD "",
    attachments := mkAttachments attIds 0 (p.attachments.getD []),
    headers := p.headers,
    receivedAt := receivedAt,
    size := (p.text.map String.length).getD 0 }

/-! ## The `onData` session

The full `onData` handler (lines 97–185) as a state transition.  Shared
mutable state: the two stores, the window counter and the
last-accepted timestamp (lines 18–19, 35–36).  External inputs of one
session: the envelope addresses (after the `|| 'unknown'` / `|| []`
defaulting of lines 98–99), the outcome of `simpleParser` (success or a
decode error carrying `err.message`), the wall clocks read at the
rate-limit check (`now`) and at acceptance (`now2`), the ISO timestamp
used in the records, and the fresh ids.  The latency delay
(`await simulateLatency()`, line 128) suspends the session but has no
effect on this state.  `callback(...)` terminates the session: with an
SMTP error object (code and message) on the deny and catch paths, and
with no argument (acknowledgement) on success. -/

structure ServerState where
  emails : List Email
  errors : List ErrorRecord
  emailsInCurrentSecond : Nat
  lastEmailTime : Nat

inductive SessionOutcome where
  | acked : SessionOutcome
  | rejected (code : Nat) (message : String) : SessionOutcome
deriving Repr, DecidableEq

/-- The `server_error` message of lines 175 and 183. -/
def serverErrorMessage (msg : String) : String :=
  "451 4.3.0 Server error: " ++ msg

def onData (rlEnabled : Bool) (maxPerSecond : Nat) (st : ServerState)
    (fromAddress : String) (toAddresses : List String)
    (parseResult : Except String ParsedMessage)
    (now : Nat) (errId emailId : String) (attIds : Nat → String)
    (timestamp : String) (now2 : Nat) : ServerState × SessionOutcome :=
  match checkRateLimit rlEnabled maxPerSecond st.emailsInCurrentSecond now with
  | some d =>
      let r1 : ErrorRecord :=
        { id := errId, type := "rate_limit", code := d.code,
          message := d.message, timestamp := timestamp,
          from_ := fromAddress, to_ := toAddresses }
      ({ st with errors := insertBounded 50 r1 st.errors },
        .rejected d.code d.message)
  | none =>
      match parseResult with
      | .ok p =>
          ({ st with
              emails := insertBounded 100
                (mkEmail emailId attIds timestamp fromAddress toAddresses p)
                st.emails,
              emailsInCurrentSecond := st.emailsInCurrentSecond + 1,
              lastEmailTime := now2 },
            .acked)
      | .error msg =>
          let r2 : ErrorRecord :=
            { id := errId, type := "server_error", code := 451,
              message := serverErrorMessage msg, timestamp := timestamp,
              from_ := fromAddress, to_ := toAddresses }
          ({ st with errors := insertBounded 50 r2 st.errors },
            .rejected 451 (serverErrorMessage msg))

/-! ## Configuration and `PUT /api/config`

The config object (lines 22–32) and the update handler (lines
288–301).  The handler receives `req.body` parsed by `express.json()`,
so a present sub-field can hold any JSON value; `JVal` covers the JSON
scalars that can reach a config field (nested objects/arrays would
behave the same for the claims at hand and are folded into `str`-like
opacity only if ever needed — they are not).  The handler does
`config.rateLimit = { ...config.rateLimit, ...rateLimit }` when the
`rateLimit` group is (truthily) present, and independently the same for
`latency`; an absent or falsy group is `none`. -/

inductive JVal where
  | num (q : ℚ) : JVal
  | str (s : String) : JVal
  | bool (b : Bool) : JVal
  | null : JVal
deriving Repr, DecidableEq

def JVal.isNum : JVal → Bool
  | .num _ => true
  | _ => false

structure RateLimitCfg where
  enabled : JVal
  maxPerSecond : JVal
deriving Repr, DecidableEq

structure LatencyCfg where
  enabled : JVal
  minMs : JVal
  maxMs : JVal
deriving Repr, DecidableEq

structure Config where
  rateLimit : RateLimitCfg
  latency : LatencyCfg
deriving Repr, DecidableEq

/-- The defaults of lines 22–32. -/
def defaultConfig : Config :=
  { rateLimit := { enabled := .bool true, maxPerSecond := .num 1 },
    latency := { enabled := .bool false, minMs := .num 0, maxMs := .num 0 } }

structure RateLimitUpd where
  enabled : Option JVal
  maxPerSecond : Option JVal

structure LatencyUpd where
  enabled : Option JVal
  minMs : Option JVal
  maxMs : Option JVal

structure ConfigUpd where
  rateLimit : Option RateLimitUpd
  latency : Option LatencyUpd

/-- Models `{ ...config.rateLimit, ...rateLimit }` (line 292): a sub-field
present in the update wins, an absent one keeps the prior value. -/
def mergeRateLimit (c : RateLimitCfg) (u : RateLimitUpd) : RateLimitCfg :=
  { enabled := u.enabled.getD c.enabled,
    maxPerSecond := u.maxPerSecond.getD c.maxPerSecond }

/-- Models `{ ...config.latency, ...latency }` (line 296). -/
def mergeLatency (c : LatencyCfg) (u : LatencyUpd) : LatencyCfg :=
  { enabled := u.enabled.getD c.enabled,
    minMs := u.minMs.getD c.minMs,
    maxMs := u.maxMs.getD c.maxMs }

/-- The `PUT /api/config` handler body (lines 288–301); the handler
responds with the updated config (`res.json(config)`), so the return
value is both the new state and the response body. -/
def putConfig (cfg : Config) (u : ConfigUpd) : Config :=
  { rateLimit :=
      match u.rateLimit with
      | some ru => mergeRateLimit cfg.rateLimit ru
      | none => cfg.rateLimit,
    latency :=
      match u.latency with
      | some lu => mergeLatency cfg.latency lu
      | none => cfg.latency }

/-! ## Latency simulation

`simulateLatency` (lines 44–52).  The delay is
`Math.floor(Math.random() * (maxMs - minMs + 1) + minMs)`;
`Math.random()` is a draw `r ∈ [0, 1)`, modelled as a rational, and
the configured bounds as integers; the disabled branch resolves
immediately, i.e. a zero delay. -/

def simulateLatencyDelay (enabled : Bool) (minMs maxMs : ℤ) (r : ℚ) : ℤ :=
  if !enabled then 0
  else ⌊r * ((maxMs : ℚ) - (minMs : ℚ) + 1) + (minMs : ℚ)⌋

/-! ## Attachment endpoints

`GET /api/emails/:emailId/attachments/:attachmentId` (lines 216–233)
and its `/inline` variant (lines 236–253).  Both look up the email by
id with `emails.find(...)`, then the attachment by id, decode the
stored base64 content into a buffer, and respond with the bytes, the
stored content type, a `Content-Disposition` header (`attachment`
vs. `inline`, each with the filename appended), and the buffer length
as `Content-Length`. -/

inductive AttachmentApiResult where
  | emailNotFound : AttachmentApiResult
  | attachmentNotFound : AttachmentApiResult
  | ok (body : List Nat) (contentType : String) (contentDisposition : String)
      (contentLength : Nat) : AttachmentApiResult
deriving Repr, DecidableEq

def downloadAttachment (emails : List Email) (emailId attachmentId : String) :
    AttachmentApiResult :=
  match emails.find? (fun e => e.id == emailId) with
  | none => .emailNotFound
  | some email =>
      match email.attachments.find? (fun a => a.id == attachmentId) with
      | none => .attachmentNotFound
      | some attachment =>
          let buffer := b64DecodeAux attachment.content.data
          .ok buffer attachment.contentType
            ("attachment; filename=\"" ++ attachment.filename ++ "\"")
            buffer.length

def inlineAttachment (emails : List Email) (emailId attachmentId : String) :
    AttachmentApiResult :=
  match emails.find? (fun e => e.id == emailId) with
  | none => .emailNotFound
  | some email =>
      match email.attachments.find? (fun a => a.id == attachmentId) with
      | none => .attachmentNotFound
      | some attachment =>
          let buffer := b64DecodeAux attachment.content.data
          .ok buffer attachment.contentType
            ("inline; filename=\"" ++ attachment.filename ++ "\"")
            buffer.length

/-- The bytes of the ASCII string `Hi!`. -/
def sampleBytes : List Nat := [72, 105, 33]

def sampleAttachment : Attachment :=
  { id := "a1", filename := "f.bin", contentType := "text/plain", size := 3,
    content := String.mk (b64EncodeAux sampleBytes), cid := none }

def sampleEmailWithAttachment : Email :=
  { sampleEmail with id := "e2", attachments := [sampleAttachment] }

/-- A sample parsed message exercising both present and absent
fields. -/
def sampleParsed : ParsedMessage :=
  { fromText := some "Alice <alice@x>", toText := none, ccText := none,
    bccText := none, subject := none, text := some "hello", html := none,
    attachments := some
      [{ filename := none, contentType := none, size := some 3,
         content := sampleBytes, cid := none }],
    headers := [] }

/-! ## Theorems -/

theorem insertBounded_eq_take (cap : Nat) (x : α) (l : List α)
    (h : l.length ≤ cap) : insertBounded cap x l = (x :: l).take cap := by
  unfold insertBounded
  by_cases hc : (x :: l).length > cap
  · simp only [hc, if_pos]
    have hlen : l.length = cap := by simp at hc; omega
    rw [List.dropLast_eq_take]
    simp [hlen]
  · simp only [hc, if_neg, not_false_iff]
    have : cap ≥ (x :: l).length := by omega
    rw [List.take_of_length_le this]

theorem take_append_take (x y : List α) (n : Nat) :
    (x ++ y.take n).take n = (x ++ y).take n := by
  rw [List.take_append_eq_append_take, List.take_append_eq_append_take,
    List.take_take]
  have hmin : (n - x.length) ⊓ n = n - x.length :=
    inf_eq_left.mpr (Nat.sub_le _ _)
  rw [hmin]

/-- Main shape lemma: folding insertions over a store of size `≤ cap`
keeps, newest first, the `cap` most recent entries. -/
theorem insertAllFrom_eq_take (cap : Nat) (s : List α) (l : List α)
    (hs : s.length ≤ cap) :
    insertAllFrom cap s l = (l.reverse ++ s).take cap := by
  induction l generalizing s with
  | nil =>
      simp only [insertAllFrom, List.foldl_nil, List.reverse_nil,
        List.nil_append]
      exact (List.take_of_length_le hs).symm
  | cons a l ih =>
      simp only [insertAllFrom, List.foldl_cons] at *
      rw [insertBounded_eq_take cap a s hs]
      rw [ih ((a :: s).take cap) (by simp [List.length_take])]
      rw [take_append_take]
      simp

theorem insertAll_eq_take (cap : Nat) (l : List α) :
    insertAll cap l = l.reverse.take cap := by
  rw [insertAll, insertAllFrom_eq_take cap [] l (by simp)]
  simp

theorem insertBounded_full (cap : Nat) (hcap : 0 < cap) (x : α) (s : List α)
    (h : s.length = cap) : insertBounded cap x s = x :: s.dropLast := by
  have hne : s ≠ [] := by intro hs; rw [hs] at h; simp at h; omega
  unfold insertBounded
  have : (x :: s).length > cap := by simp [h]
  rw [if_pos this, List.dropLast_cons_of_ne_nil hne]

theorem charToSix_sixToChar : ∀ n < 64, charToSix (sixToChar n) = n := by
  decide

theorem sixToChar_ne_pad : ∀ n < 64, sixToChar n ≠ '=' := by
  decide

/-- Decoding inverts encoding on byte lists. -/
theorem b64_roundtrip : ∀ l : List Nat, (∀ b ∈ l, b < 256) →
    b64DecodeAux (b64EncodeAux l) = l
  | [], _ => rfl
  | [b1], h => by
      have hb1 : b1 < 256 := h b1 (by simp)
      have e1 := charToSix_sixToChar (b1 / 4) (by omega)
      have e2 := charToSix_sixToChar (b1 % 4 * 16) (by omega)
      simp [b64EncodeAux, b64DecodeAux, e1, e2]
      omega
  | [b1, b2], h => by
      have hb1 : b1 < 256 := h b1 (by simp)
      have hb2 : b2 < 256 := h b2 (by simp)
      have e1 := charToSix_sixToChar (b1 / 4) (by omega)
      have e2 := charToSix_sixToChar (b1 % 4 * 16 + b2 / 16) (by omega)
      have e3 := charToSix_sixToChar (b2 % 16 * 4) (by omega)
      have ne1 := sixToChar_ne_pad (b2 % 16 * 4) (by omega)
      simp [b64EncodeAux, b64DecodeAux, e1, e2, e3, ne1]
      omega
  | b1 :: b2 :: b3 :: rest, h => by
      have hb1 : b1 < 256 := h b1 (by simp)
      have hb2 : b2 < 256 := h b2 (by simp)
      have hb3 : b3 < 256 := h b3 (by simp)
      have ih := b64_roundtrip rest (fun b hb => h b (by simp [hb]))
      have e1 := charToSix_sixToChar (b1 / 4) (by omega)
      have e2 := charToSix_sixToChar (b1 % 4 * 16 + b2 / 16) (by omega)
      have e3 := charToSix_sixToChar (b2 % 16 * 4 + b3 / 64) (by omega)
      have e4 := charToSix_sixToChar (b3 % 64) (by omega)
      have ne1 := sixToChar_ne_pad (b2 % 16 * 4 + b3 / 64) (by omega)
      have ne2 := sixToChar_ne_pad (b3 % 64) (by omega)
      simp [b64EncodeAux, b64DecodeAux, e1, e2, e3, e4, ne1, ne2, ih]
      refine ⟨by omega, by omega, by omega⟩

theorem mkAttachments_get? (attIds : Nat → String) (k i : Nat)
    (l : List ParsedAttachment) :
    (mkAttachments attIds k l).get? i =
      (l.get? i).map (fun a => mkAttachment (attIds (k + i)) a) := by
  induction l generalizing k i with
  | nil => simp [mkAttachments]
  | cons a rest ih =>
      cases i with
      | zero => simp [mkAttachments]
      | succ j =>
          simp only [mkAttachments, List.get?_cons_succ]
          rw [ih (k + 1) j]
          have : k + 1 + j = k + (j + 1) := by omega
          rw [this]

theorem checkRateLimit_some (rlEnabled : Bool) (maxPerSecond count now : Nat)
    (d : RLDeny) (h : checkRateLimit rlEnabled maxPerSecond count now = some d) :
    d = ⟨421, rateLimitMessage maxPerSecond, 1000 - now % 1000⟩ := by
  unfold checkRateLimit at h
  split at h
  · exact absurd h (by simp)
  · split at h
    · exact (Option.some.injEq _ _ ▸ h).symm
    · exact absurd h (by simp)

/-- C3. The window counter and the last-accepted timestamp advance
exactly once per message that completes ingestion successfully
(counter incremented by one, timestamp set to the acceptance clock),
and are left unchanged by every other outcome: a rate-limit denial
leaves both untouched, and an admitted message whose parsing fails
leaves both untouched, so ingestion failures never consume rate-limit
budget. -/
theorem counter_advances_only_on_success (en : Bool) (mx : Nat)
    (st : ServerState) (fa : String) (ta : List String)
    (pr : Except String ParsedMessage) (now : Nat) (ei mi : String)
    (ai : Nat → String) (ts : String) (n2 : Nat) :
    (∀ d, checkRateLimit en mx st.emailsInCurrentSecond now = some d →
      (onData en mx st fa ta pr now ei mi ai ts n2).1.emailsInCurrentSecond =
        st.emailsInCurrentSecond ∧
      (onData en mx st fa ta pr now ei mi ai ts n2).1.lastEmailTime =
        st.lastEmailTime) ∧
    (checkRateLimit en mx st.emailsInCurrentSecond now = none →
      ∀ msg, pr = .error msg →
      (onData en mx st fa ta pr now ei mi ai ts n2).1.emailsInCurrentSecond =
        st.emailsInCurrentSecond ∧
      (onData en mx st fa ta pr now ei mi ai ts n2).1.lastEmailTime =
        st.lastEmailTime) ∧
    (checkRateLimit en mx st.emailsInCurrentSecond now = none →
      ∀ p, pr = .ok p →
      (onData en mx st fa ta pr now ei mi ai ts n2).1.emailsInCurrentSecond =
        st.emailsInCurrentSecond + 1 ∧
      (onData en mx st fa ta pr now ei mi ai ts n2).1.lastEmailTime = n2) := by
  refine ⟨fun d hd => ?_, fun hn msg hmsg => ?_, fun hn p hp => ?_⟩
  · simp [onData, hd]
  · simp [onData, hn, hmsg]
  · simp [onData, hn, hp]

/-- Witness for C3: a denied session (full window), a parse failure and
a successful ingestion at concrete inputs. -/
theorem counter_advances_only_on_success_witness :
    ((onData true 1 ⟨[], [], 1, 7⟩ "a@x" ["b@y"] (.error "boom") 1234 "r1"
        "e1" (fun _ => "a1") "t" 5678).1.emailsInCurrentSecond = 1 ∧
      (onData true 1 ⟨[], [], 1, 7⟩ "a@x" ["b@y"] (.error "boom") 1234 "r1"
        "e1" (fun _ => "a1") "t" 5678).1.lastEmailTime = 7) ∧
    ((onData false 1 ⟨[], [], 1, 7⟩ "a@x" ["b@y"] (.error "boom") 1234 "r1"
        "e1" (fun _ => "a1") "t" 5678).1.emailsInCurrentSecond = 1 ∧
      (onData false 1 ⟨[], [], 1, 7⟩ "a@x" ["b@y"] (.error "boom") 1234 "r1"
        "e1" (fun _ => "a1") "t" 5678).1.lastEmailTime = 7) := by
  constructor
  · exact (counter_advances_only_on_success true 1 ⟨[], [], 1, 7⟩ "a@x" ["b@y"]
      (.error "boom") 1234 "r1" "e1" (fun _ => "a1") "t" 5678).1 _ (by rfl)
  · exact (counter_advances_only_on_success false 1 ⟨[], [], 1, 7⟩ "a@x" ["b@y"]
      (.error "boom") 1234 "r1" "e1" (fun _ => "a1") "t" 5678).2.1 (by rfl)
      "boom" rfl

/-- C4. Every failed session produces exactly one `ErrorRecord`
and no `Email`: a rate-limit denial performs exactly one error-store
insertion, of a record of type `rate_limit` carrying the 421 code and
the rejection message, and a decode/parse failure performs exactly one
error-store insertion, of a record of type `server_error` with code 451
carrying the decoder error's message; in both cases the email store is
unchanged and the session terminates with the corresponding protocol
rejection. -/
theorem failed_session_records_one_error (en : Bool) (mx : Nat)
    (st : ServerState) (fa : String) (ta : List String)
    (pr : Except String ParsedMessage) (now : Nat) (ei mi : String)
    (ai : Nat → String) (ts : String) (n2 : Nat) :
    (∀ d, checkRateLimit en mx st.emailsInCurrentSecond now = some d →
      (onData en mx st fa ta pr now ei mi ai ts n2).1.emails = st.emails ∧
      (onData en mx st fa ta pr now ei mi ai ts n2).1.errors =
        insertBounded 50
          ⟨ei, "rate_limit", 421, rateLimitMessage mx, ts, fa, ta⟩
          st.errors ∧
      d.code = 421 ∧ d.message = rateLimitMessage mx ∧
      (onData en mx st fa ta pr now ei mi ai ts n2).2 =
        .rejected 421 (rateLimitMessage mx)) ∧
    (checkRateLimit en mx st.emailsInCurrentSecond now = none →
      ∀ msg, pr = .error msg →
      (onData en mx st fa ta pr now ei mi ai ts n2).1.emails = st.emails ∧
      (onData en mx st fa ta pr now ei mi ai ts n2).1.errors =
        insertBounded 50
          ⟨ei, "server_error", 451, serverErrorMessage msg, ts, fa, ta⟩
          st.errors ∧
      (onData en mx st fa ta pr now ei mi ai ts n2).2 =
        .rejected 451 (serverErrorMessage msg)) := by
  constructor
  · intro d hd
    have hde := checkRateLimit_some en mx st.emailsInCurrentSecond now d hd
    subst hde
    simp [onData, hd]
  · intro hn msg hmsg
    simp [onData, hn, hmsg]

/-- Witness for C4: the deny path and the parse-failure path at
concrete inputs. -/
theorem failed_session_records_one_error_witness :
    ((onData true 1 ⟨[sampleEmail], [], 1, 7⟩ "a@x" ["b@y"] (.error "boom")
        1234 "r1" "e1" (fun _ => "a1") "t" 5678).1.emails = [sampleEmail] ∧
      (onData true 1 ⟨[sampleEmail], [], 1, 7⟩ "a@x" ["b@y"] (.error "boom")
        1234 "r1" "e1" (fun _ => "a1") "t" 5678).1.errors =
        insertBounded 50
          ⟨"r1", "rate_limit", 421, rateLimitMessage 1, "t", "a@x", ["b@y"]⟩
          []) ∧
    ((onData false 1 ⟨[sampleEmail], [], 1, 7⟩ "a@x" ["b@y"] (.error "boom")
        1234 "r1" "e1" (fun _ => "a1") "t" 5678).1.emails = [sampleEmail] ∧
      (onData false 1 ⟨[sampleEmail], [], 1, 7⟩ "a@x" ["b@y"] (.error "boom")
        1234 "r1" "e1" (fun _ => "a1") "t" 5678).2 =
        .rejected 451 (serverErrorMessage "boom")) := by
  constructor
  · have h := (failed_session_records_one_error true 1 ⟨[sampleEmail], [], 1, 7⟩
      "a@x" ["b@y"] (.error "boom") 1234 "r1" "e1" (fun _ => "a1") "t" 5678).1
      _ (by rfl)
    exact ⟨h.1, h.2.1⟩
  · have h := (failed_session_records_one_error false 1
      ⟨[sampleEmail], [], 1, 7⟩ "a@x" ["b@y"] (.error "boom") 1234 "r1" "e1"
      (fun _ => "a1") "t" 5678).2 (by rfl) "boom" rfl
    exact ⟨h.1, h.2.2⟩

/-- C1. Both bounded stores keep their capacity invariant and
ordering: after any sequence of insertions (from the initially empty
arrays) the email store holds at most 100 entries and the error store
at most 50, each being the reversal (newest-first) of the insertion
sequence truncated to capacity; an insertion into a full store evicts
exactly the single oldest (tail) entry, leaving the remaining entries
and their relative order unchanged; inserting 101 emails leaves exactly
the 100 most recent stored, with only the oldest evicted. -/
theorem bounded_stores_invariant (l : List Email) (l2 : List ErrorRecord) :
    (insertAll 100 l).length ≤ 100 ∧
    (insertAll 50 l2).length ≤ 50 ∧
    insertAll 100 l = l.reverse.take 100 ∧
    insertAll 50 l2 = l2.reverse.take 50 ∧
    (∀ (e : Email) (s : List Email), s.length = 100 →
      insertBounded 100 e s = e :: s.dropLast) ∧
    (∀ (r : ErrorRecord) (s : List ErrorRecord), s.length = 50 →
      insertBounded 50 r s = r :: s.dropLast) ∧
    (l.length = 101 →
      insertAll 100 l = (l.drop 1).reverse ∧ (insertAll 100 l).length = 100) := by
  refine ⟨?_, ?_, insertAll_eq_take 100 l, insertAll_eq_take 50 l2,
    fun e s h => insertBounded_full 100 (by omega) e s h,
    fun r s h => insertBounded_full 50 (by omega) r s h, fun h101 => ?_⟩
  · rw [insertAll_eq_take]; simp [List.length_take_le]
  · rw [insertAll_eq_take]; simp [List.length_take_le]
  · cases l with
    | nil => simp at h101
    | cons a t =>
        have ht : t.length = 100 := by simp at h101; omega
        have hrev : t.reverse.length = 100 := by simp [ht]
        constructor
        · rw [insertAll_eq_take]
          simp only [List.reverse_cons, List.drop_one, List.tail_cons]
          exact List.take_left' hrev
        · rw [insertAll_eq_take]
          simp only [List.reverse_cons]
          rw [List.take_left' hrev]
          exact hrev

/-- Witness for C1: full-store eviction and the 101-insertion clause at
concrete inputs. -/
theorem bounded_stores_invariant_witness :
    insertBounded 100 sampleEmail (List.replicate 100 sampleEmail) =
      sampleEmail :: (List.replicate 100 sampleEmail).dropLast ∧
    insertAll 100 (List.replicate 101 sampleEmail) =
      ((List.replicate 101 sampleEmail).drop 1).reverse :=
  ⟨(bounded_stores_invariant [] []).2.2.2.2.1 sampleEmail _ (by simp),
   ((bounded_stores_invariant (List.replicate 101 sampleEmail) []).2.2.2.2.2.2
      (by simp)).1⟩

/-- C2. The admission check satisfies its contract: when rate
limiting is disabled it always allows; when enabled and the counter has
reached `maxPerSecond`, it denies with code 421, the message stating
the configured limit, and `retryAfter = 1000 - now % 1000`, a value in
`[0, 1000]` (it is a natural, so `0 ≤ retryAfter` holds by type);
when enabled and the counter is below `maxPerSecond`, it allows. -/
theorem checkRateLimit_contract (rlEnabled : Bool) (maxPerSecond count now : Nat) :
    (rlEnabled = false → checkRateLimit rlEnabled maxPerSecond count now = none) ∧
    (rlEnabled = true → maxPerSecond ≤ count →
      checkRateLimit rlEnabled maxPerSecond count now =
        some ⟨421, rateLimitMessage maxPerSecond, 1000 - now % 1000⟩ ∧
      1000 - now % 1000 ≤ 1000) ∧
    (rlEnabled = true → count < maxPerSecond →
      checkRateLimit rlEnabled maxPerSecond count now = none) := by
  refine ⟨fun hd => ?_, fun he hc => ⟨?_, by omega⟩, fun he hc => ?_⟩
  · simp [checkRateLimit, hd]
  · simp [checkRateLimit, he, hc]
  · simp [checkRateLimit, he]
    omega

/-- Witness for C2: the deny branch at a concrete counter and clock. -/
theorem checkRateLimit_contract_witness :
    checkRateLimit true 1 1 1234 =
      some ⟨421, rateLimitMessage 1, 1000 - 1234 % 1000⟩ ∧
    1000 - 1234 % 1000 ≤ 1000 :=
  (checkRateLimit_contract true 1 1 1234).2.1 rfl (by decide)

/-- C5. The configuration update is a field-group shallow merge
with a frame guarantee: when the update contains a `rateLimit`
(resp. `latency`) group, the sub-fields present in that group overwrite
the prior sub-fields and the sub-fields not included keep their prior
values, while a group absent from the update is entirely unchanged; in
particular `{latency: {enabled: v}}` changes only `latency.enabled`,
leaving `rateLimit` and the other `latency` fields at their prior
values. -/
theorem putConfig_shallow_merge (cfg : Config) (u : ConfigUpd) (v : JVal) :
    (∀ ru, u.rateLimit = some ru →
      (∀ x, ru.enabled = some x → (putConfig cfg u).rateLimit.enabled = x) ∧
      (ru.enabled = none →
        (putConfig cfg u).rateLimit.enabled = cfg.rateLimit.enabled) ∧
      (∀ x, ru.maxPerSecond = some x →
        (putConfig cfg u).rateLimit.maxPerSecond = x) ∧
      (ru.maxPerSecond = none →
        (putConfig cfg u).rateLimit.maxPerSecond =
          cfg.rateLimit.maxPerSecond)) ∧
    (∀ lu, u.latency = some lu →
      (∀ x, lu.enabled = some x → (putConfig cfg u).latency.enabled = x) ∧
      (lu.enabled = none →
        (putConfig cfg u).latency.enabled = cfg.latency.enabled) ∧
      (∀ x, lu.minMs = some x → (putConfig cfg u).latency.minMs = x) ∧
      (lu.minMs = none → (putConfig cfg u).latency.minMs = cfg.latency.minMs) ∧
      (∀ x, lu.maxMs = some x → (putConfig cfg u).latency.maxMs = x) ∧
      (lu.maxMs = none →
        (putConfig cfg u).latency.maxMs = cfg.latency.maxMs)) ∧
    (u.rateLimit = none → (putConfig cfg u).rateLimit = cfg.rateLimit) ∧
    (u.latency = none → (putConfig cfg u).latency = cfg.latency) ∧
    (putConfig cfg ⟨none, some ⟨some v, none, none⟩⟩ =
      { cfg with latency := { cfg.latency with enabled := v } }) := by
  refine ⟨fun ru hru => ?_, fun lu hlu => ?_, fun h => ?_, fun h => ?_, ?_⟩
  · refine ⟨fun x hx => ?_, fun hx => ?_, fun x hx => ?_, fun hx => ?_⟩ <;>
      simp [putConfig, mergeRateLimit, hru, hx]
  · refine ⟨fun x hx => ?_, fun hx => ?_, fun x hx => ?_, fun hx => ?_,
      fun x hx => ?_, fun hx => ?_⟩ <;>
      simp [putConfig, mergeLatency, hlu, hx]
  · simp [putConfig, h]
  · simp [putConfig, h]
  · simp [putConfig, mergeLatency]

/-- Witness for C5: updating the default config with
`{latency: {enabled: true}}` flips only `latency.enabled`. -/
theorem putConfig_shallow_merge_witness :
    putConfig defaultConfig ⟨none, some ⟨some (.bool true), none, none⟩⟩ =
      { defaultConfig with
          latency := { defaultConfig.latency with enabled := .bool true } } :=
  (putConfig_shallow_merge defaultConfig
    ⟨none, some ⟨some (.bool true), none, none⟩⟩ (.bool true)).2.2.2.2

/-- Counterexample to C6 as stated: the handler performs no type
check or coercion, so an update supplying the JSON string
`"unlimited"` for `rateLimit.maxPerSecond` stores that string verbatim
— the stored field is not a number and did not fall back to the prior
value (the default `1`). -/
theorem putConfig_no_validation_counterexample :
    (putConfig defaultConfig
        ⟨some ⟨none, some (.str "unlimited")⟩, none⟩).rateLimit.maxPerSecond =
      .str "unlimited" ∧
    JVal.isNum (putConfig defaultConfig
        ⟨some ⟨none, some (.str "unlimited")⟩, none⟩).rateLimit.maxPerSecond =
      false ∧
    defaultConfig.rateLimit.maxPerSecond = .num 1 := by
  refine ⟨rfl, rfl, rfl⟩

/-- C6, amended. The update performs no numeric validation or
coercion: a sub-field present in the update is stored exactly as given
(so a present non-numeric value ends up stored verbatim), while a
numeric sub-field missing from the update keeps its prior value.
Consequently, if the prior configuration's numeric fields hold numbers
and every numeric sub-field present in the update is a number, the
numeric fields of the updated configuration still hold numbers (and in
particular never `NaN` or `undefined`, which JSON request bodies cannot
even express). -/
theorem putConfig_numeric_preservation (cfg : Config) (u : ConfigUpd)
    (h1 : JVal.isNum cfg.rateLimit.maxPerSecond = true)
    (h2 : JVal.isNum cfg.latency.minMs = true)
    (h3 : JVal.isNum cfg.latency.maxMs = true)
    (h4 : ∀ ru, u.rateLimit = some ru → ∀ x, ru.maxPerSecond = some x →
      JVal.isNum x = true)
    (h5 : ∀ lu, u.latency = some lu → ∀ x, lu.minMs = some x →
      JVal.isNum x = true)
    (h6 : ∀ lu, u.latency = some lu → ∀ x, lu.maxMs = some x →
      JVal.isNum x = true) :
    JVal.isNum (putConfig cfg u).rateLimit.maxPerSecond = true ∧
    JVal.isNum (putConfig cfg u).latency.minMs = true ∧
    JVal.isNum (putConfig cfg u).latency.maxMs = true ∧
    (∀ ru, u.rateLimit = some ru → ru.maxPerSecond = none →
      (putConfig cfg u).rateLimit.maxPerSecond =
        cfg.rateLimit.maxPerSecond) ∧
    (∀ lu, u.latency = some lu →
      (lu.minMs = none → (putConfig cfg u).latency.minMs = cfg.latency.minMs) ∧
      (lu.maxMs = none →
        (putConfig cfg u).latency.maxMs = cfg.latency.maxMs)) := by
  refine ⟨?_, ?_, ?_, fun ru hru hx => ?_, fun lu hlu => ⟨fun hx => ?_, fun hx => ?_⟩⟩
  · match hru : u.rateLimit with
    | none => simpa [putConfig, hru] using h1
    | some ru =>
        match hx : ru.maxPerSecond with
        | none => simpa [putConfig, mergeRateLimit, hru, hx] using h1
        | some x =>
            have := h4 ru hru x hx
            simpa [putConfig, mergeRateLimit, hru, hx] using this
  · match hlu : u.latency with
    | none => simpa [putConfig, hlu] using h2
    | some lu =>
        match hx : lu.minMs with
        | none => simpa [putConfig, mergeLatency, hlu, hx] using h2
        | some x =>
            have := h5 lu hlu x hx
            simpa [putConfig, mergeLatency, hlu, hx] using this
  · match hlu : u.latency with
    | none => simpa [putConfig, hlu] using h3
    | some lu =>
        match hx : lu.maxMs with
        | none => simpa [putConfig, mergeLatency, hlu, hx] using h3
        | some x =>
            have := h6 lu hlu x hx
            simpa [putConfig, mergeLatency, hlu, hx] using this
  · simp [putConfig, mergeRateLimit, hru, hx]
  · simp [putConfig, mergeLatency, hlu, hx]
  · simp [putConfig, mergeLatency, hlu, hx]

/-- Witness for C6 (amended): an all-numeric update of the default
config keeps every numeric field numeric. -/
theorem putConfig_numeric_preservation_witness :
    JVal.isNum (putConfig defaultConfig
        ⟨some ⟨none, some (.num 5)⟩, none⟩).rateLimit.maxPerSecond = true ∧
    JVal.isNum (putConfig defaultConfig
        ⟨some ⟨none, some (.num 5)⟩, none⟩).latency.minMs = true ∧
    JVal.isNum (putConfig defaultConfig
        ⟨some ⟨none, some (.num 5)⟩, none⟩).latency.maxMs = true := by
  have h := putConfig_numeric_preservation defaultConfig
    ⟨some ⟨none, some (.num 5)⟩, none⟩ rfl rfl rfl
    (fun ru hru x hx => by
      cases Option.some.inj hru
      cases Option.some.inj hx
      rfl)
    (fun lu hlu x hx => by cases hlu)
    (fun lu hlu x hx => by cases hlu)
  exact ⟨h.1, h.2.1, h.2.2.1⟩

/-- C10. A configuration update whose body contains neither a
`rateLimit` key nor a `latency` key is the identity: for every prior
configuration the stored configuration after the update, which is also
the handler's response body, equals the prior configuration. -/
theorem putConfig_empty_update_identity (cfg : Config) :
    putConfig cfg ⟨none, none⟩ = cfg := rfl

/-- C8. The latency computation returns zero when latency
simulation is disabled; when enabled, and provided `minMs ≤ maxMs`,
the delay is an integer in the inclusive range `[minMs, maxMs]` for
every value of the random draw in `[0, 1)`. -/
theorem simulateLatency_range (minMs maxMs : ℤ) (r : ℚ)
    (h0 : 0 ≤ r) (h1 : r < 1) (hle : minMs ≤ maxMs) :
    simulateLatencyDelay false minMs maxMs r = 0 ∧
    minMs ≤ simulateLatencyDelay true minMs maxMs r ∧
    simulateLatencyDelay true minMs maxMs r ≤ maxMs := by
  have hcast : (minMs : ℚ) ≤ (maxMs : ℚ) := by exact_mod_cast hle
  have hd : (0 : ℚ) < (maxMs : ℚ) - (minMs : ℚ) + 1 := by linarith
  refine ⟨rfl, ?_, ?_⟩
  · show minMs ≤ ⌊r * ((maxMs : ℚ) - (minMs : ℚ) + 1) + (minMs : ℚ)⌋
    apply Int.le_floor.mpr
    have := mul_nonneg h0 (le_of_lt hd)
    linarith
  · show ⌊r * ((maxMs : ℚ) - (minMs : ℚ) + 1) + (minMs : ℚ)⌋ ≤ maxMs
    have hlt : ⌊r * ((maxMs : ℚ) - (minMs : ℚ) + 1) + (minMs : ℚ)⌋ < maxMs + 1 := by
      apply Int.floor_lt.mpr
      have hmul : r * ((maxMs : ℚ) - (minMs : ℚ) + 1) <
          1 * ((maxMs : ℚ) - (minMs : ℚ) + 1) :=
        mul_lt_mul_of_pos_right h1 hd
      push_cast
      linarith
    omega

/-- Witness for C8: bounds `[10, 20]` with the draw `1/2`. -/
theorem simulateLatency_range_witness :
    simulateLatencyDelay false 10 20 (1 / 2) = 0 ∧
    10 ≤ simulateLatencyDelay true 10 20 (1 / 2) ∧
    simulateLatencyDelay true 10 20 (1 / 2) ≤ 20 :=
  simulateLatency_range 10 20 (1 / 2) (by norm_num) (by norm_num) (by norm_num)

/-- C7. Attachment content round-trips through storage: when an
attachment was ingested with content bytes `X` (so its stored
`content` is the base64 encoding of `X`, line 139) and the two lookups
find it, the download endpoint and the inline endpoint both return a
body byte-identical to `X`, with the stored content type, and with a
`Content-Disposition` of `attachment` versus `inline` respectively. -/
theorem attachment_roundtrip (store : List Email) (eid aid : String)
    (em : Email) (att : Attachment) (X : List Nat)
    (hX : ∀ b ∈ X, b < 256)
    (he : store.find? (fun e => e.id == eid) = some em)
    (ha : em.attachments.find? (fun a => a.id == aid) = some att)
    (hc : att.content = String.mk (b64EncodeAux X)) :
    downloadAttachment store eid aid =
      .ok X att.contentType
        ("attachment; filename=\"" ++ att.filename ++ "\"") X.length ∧
    inlineAttachment store eid aid =
      .ok X att.contentType
        ("inline; filename=\"" ++ att.filename ++ "\"") X.length := by
  have hdec : b64DecodeAux att.content.data = X := by
    rw [hc]
    exact b64_roundtrip X hX
  constructor
  · simp [downloadAttachment, he, ha, hdec]
  · simp [inlineAttachment, he, ha, hdec]

/-- Witness for C7: the sample attachment round-trips through both
endpoints. -/
theorem attachment_roundtrip_witness :
    downloadAttachment [sampleEmailWithAttachment] "e2" "a1" =
      .ok sampleBytes sampleAttachment.contentType
        ("attachment; filename=\"" ++ sampleAttachment.filename ++ "\"")
        sampleBytes.length ∧
    inlineAttachment [sampleEmailWithAttachment] "e2" "a1" =
      .ok sampleBytes sampleAttachment.contentType
        ("inline; filename=\"" ++ sampleAttachment.filename ++ "\"")
        sampleBytes.length :=
  attachment_roundtrip [sampleEmailWithAttachment] "e2" "a1"
    sampleEmailWithAttachment sampleAttachment sampleBytes
    (by decide) (by rfl) (by rfl) rfl

/-- C9. For every successfully parsed message, the constructed
`Email` has: `from`/`to` equal to the parsed header text when that text
is present (truthy), otherwise the raw envelope address (for `to`, the
comma-joined recipient list); a subject defaulting to the
`(no subject)` placeholder when absent; a size equal to the plain-text
body length (0 when there is no text body); and each attachment
receives the fresh id drawn at its position, a missing content type
defaults to `application/octet-stream`, a missing filename defaults to
`unnamed`, and the stored payload decodes back to the received bytes. -/
theorem ingestion_field_mapping (eid : String) (ai : Nat → String)
    (ts fa : String) (ta : List String) (p : ParsedMessage) :
    (∀ t, p.fromText = some t → (mkEmail eid ai ts fa ta p).from_ = t) ∧
    (p.fromText = none → (mkEmail eid ai ts fa ta p).from_ = fa) ∧
    (∀ t, p.toText = some t → (mkEmail eid ai ts fa ta p).to_ = t) ∧
    (p.toText = none →
      (mkEmail eid ai ts fa ta p).to_ = String.intercalate ", " ta) ∧
    (p.subject = none → (mkEmail eid ai ts fa ta p).subject = "(no subject)") ∧
    (∀ t, p.text = some t → (mkEmail eid ai ts fa ta p).size = t.length) ∧
    (p.text = none → (mkEmail eid ai ts fa ta p).size = 0) ∧
    (∀ i a, (p.attachments.getD []).get? i = some a →
      (mkEmail eid ai ts fa ta p).attachments.get? i =
        some (mkAttachment (ai i) a) ∧
      (mkAttachment (ai i) a).id = ai i ∧
      (a.contentType = none →
        (mkAttachment (ai i) a).contentType = "application/octet-stream") ∧
      (a.filename = none → (mkAttachment (ai i) a).filename = "unnamed") ∧
      ((∀ b ∈ a.content, b < 256) →
        b64DecodeAux ((mkAttachment (ai i) a).content).data = a.content)) := by
  refine ⟨fun t ht => ?_, fun ht => ?_, fun t ht => ?_, fun ht => ?_,
    fun hs => ?_, fun t ht => ?_, fun ht => ?_, fun i a hia => ?_⟩
  · simp [mkEmail, ht]
  · simp [mkEmail, ht]
  · simp [mkEmail, ht]
  · simp [mkEmail, ht]
  · simp [mkEmail, hs]
  · simp [mkEmail, ht]
  · simp [mkEmail, ht]
  · refine ⟨?_, rfl, fun hct => ?_, fun hf => ?_, fun hb => ?_⟩
    · simp only [mkEmail]
      rw [mkAttachments_get? ai 0 i (p.attachments.getD []), hia]
      simp
    · simp [mkAttachment, hct]
    · simp [mkAttachment, hf]
    · show b64DecodeAux (String.mk (b64EncodeAux a.content)).data = a.content
      exact b64_roundtrip a.content hb

/-- Witness for C9: the sample parsed message at concrete inputs. -/
theorem ingestion_field_mapping_witness :
    (mkEmail "e9" (fun i => "att" ++ toString i) "t" "env@x" ["r1@x", "r2@x"]
        sampleParsed).from_ = "Alice <alice@x>" ∧
    (mkEmail "e9" (fun i => "att" ++ toString i) "t" "env@x" ["r1@x", "r2@x"]
        sampleParsed).to_ = String.intercalate ", " ["r1@x", "r2@x"] ∧
    (mkEmail "e9" (fun i => "att" ++ toString i) "t" "env@x" ["r1@x", "r2@x"]
        sampleParsed).subject = "(no subject)" ∧
    (mkEmail "e9" (fun i => "att" ++ toString i) "t" "env@x" ["r1@x", "r2@x"]
        sampleParsed).size = 5 := by
  have h := ingestion_field_mapping "e9" (fun i => "att" ++ toString i) "t"
    "env@x" ["r1@x", "r2@x"] sampleParsed
  exact ⟨h.1 _ rfl, h.2.2.2.1 rfl, h.2.2.2.2.1 rfl, h.2.2.2.2.2.1 "hello" rfl⟩

end SandboxMailer
